import Mathlib

/-!
Verification of the orphaned-subprocess reconciler (src/server/mcpCleanup.ts).

The TypeScript module talks to the operating system through `execAsync`
(process enumeration via pgrep / lsof) and `process.kill` (signal
delivery).  We embed the POSIX code path shallowly: every OS interaction
is an input drawn from an environment value, and a call that would throw
in JavaScript is encoded as an explicit error value (`none` for a failed
exec, `SigResult.err` for a throwing `process.kill`).  Every function of
the module catches these errors where the source does, so the embedded
functions are total.  Functions additionally return a trace of the
externally visible actions (signals sent, pids handed to the terminator)
so that claims about actions, not just return values, can be stated.
-/

/-- JavaScript `s.trim()`: drop whitespace from both ends. -/
def jsTrim (s : String) : String :=
  String.mk
    (((s.data.dropWhile Char.isWhitespace).reverse.dropWhile
      Char.isWhitespace).reverse)

/-- Helper for `jsSplitNl`: split a character list at every separator,
accumulating the current segment in reverse. -/
def splitNlAux : List Char → List Char → List String
  | [], cur => [String.mk cur.reverse]
  | c :: cs, cur =>
    if c = '\n' then String.mk cur.reverse :: splitNlAux cs []
    else splitNlAux cs (c :: cur)

/-- JavaScript `s.split('\n')`: always yields at least one segment; the
empty string yields `[""]`. -/
def jsSplitNl (s : String) : List String :=
  splitNlAux s.data []

/-- JavaScript `parseInt(s, 10)`: skip leading whitespace, read an
optional sign, then the maximal run of decimal digits; `none` models the
`NaN` result when no digit is found. -/
def parseDigits (cs : List Char) : Option Nat :=
  let ds := cs.takeWhile Char.isDigit
  if ds.isEmpty then none
  else some (ds.foldl (fun n c => n * 10 + (c.toNat - 48)) 0)

def jsParseInt10 (s : String) : Option Int :=
  let cs := s.data.dropWhile Char.isWhitespace
  match cs with
  | '-' :: rest => (parseDigits rest).map (fun n => -(n : Int))
  | '+' :: rest => (parseDigits rest).map (fun n => (n : Int))
  | _ => (parseDigits cs).map (fun n => (n : Int))

/-- `interface ProcessInfo { pid, name, port? }` from the source. -/
structure ProcessInfo where
  pid : Int
  name : String
  port : Option Int
deriving DecidableEq, Repr

/-- Reasons of `interface KillResult` in the source:
`killed | already_dead | permission_denied | error`.  The
specification names the same four outcomes `terminated`, `already_dead`,
`permission_denied` and `failed` respectively. -/
inductive KillReason where
  | killed
  | already_dead
  | permission_denied
  | error
deriving DecidableEq, Repr

/-- `interface KillResult { success: boolean; reason?: ... }`. -/
structure KillResult where
  success : Bool
  reason : Option KillReason
deriving DecidableEq, Repr

/-- Error codes a throwing `process.kill` can carry: `ESRCH` (no such
process), `EPERM` (not permitted), or anything else. -/
inductive KillErr where
  | esrch
  | eperm
  | other
deriving DecidableEq, Repr

/-- Result of one `process.kill(pid, sig)` call: it either returns
normally or throws with an error code. -/
inductive SigResult where
  | ok
  | err (e : KillErr)
deriving DecidableEq, Repr

/-- How one process responds to the (at most) four `process.kill` calls
`killProcess` makes, in source order: the SIGTERM delivery, the first
liveness probe after the 500 ms grace wait (`true` means the probe
returned, i.e. the process is still alive; `false` means it threw, i.e.
the process is gone), the SIGKILL delivery, and the second liveness
probe after the 200 ms wait. -/
structure ProcBehavior where
  sigtermResult : SigResult
  aliveAfterTerm : Bool
  sigkillResult : SigResult
  aliveAfterKill : Bool
deriving DecidableEq, Repr

/-- The externally visible signals `killProcess` can send:
SIGTERM, the zero-signal liveness probe, and SIGKILL. -/
inductive Sig where
  | term
  | probe
  | forced
deriving DecidableEq, Repr

/-- Shallow embedding of `killProcess` (mcpCleanup.ts lines 144 to 185)
together with the list of signals it sends, in order.  The outer
`try/catch` classifies a throwing SIGTERM by error code; the inner
catches treat any throwing probe as "process is gone" and a throwing
SIGKILL like the source does (the catch on line 166 also covers it,
returning success). -/
def killProcessTr (b : ProcBehavior) : KillResult × List Sig :=
  match b.sigtermResult with
  | .err .esrch => (⟨true, some .already_dead⟩, [.term])
  | .err .eperm => (⟨false, some .permission_denied⟩, [.term])
  | .err .other => (⟨false, some .error⟩, [.term])
  | .ok =>
    if b.aliveAfterTerm then
      match b.sigkillResult with
      | .err _ => (⟨true, some .killed⟩, [.term, .probe, .forced])
      | .ok =>
        if b.aliveAfterKill then
          (⟨false, some .error⟩, [.term, .probe, .forced, .probe])
        else
          (⟨true, some .killed⟩, [.term, .probe, .forced, .probe])
    else
      (⟨true, some .killed⟩, [.term, .probe])

/-- The `KillResult` part of `killProcess`. -/
def killProcess (b : ProcBehavior) : KillResult :=
  (killProcessTr b).1

/-- The OS as the module sees it: the stdout of `pgrep -f pattern` per
pattern and of `lsof -ti:port` per port on the POSIX path, the stdout of
`netstat -ano | findstr ":port"` per port on the win32 path (`none`
always means the exec itself threw; on Windows `findstr` exits nonzero
whenever it matches no line — in particular on a free port — and
`execAsync` then rejects, so `none` is also the canonical response for a
free port there), and each processes response to the signal sequence of
`killProcess`. -/
structure OsEnv where
  pgrep : String → Option String
  lsof : Int → Option String
  netstat : Int → Option String
  procs : Int → ProcBehavior

/-- The module-level mutable state: the `MCP_PROCESS_PATTERNS` and
`MCP_PORTS` arrays. -/
structure CleanupState where
  patterns : List String
  ports : List Int
deriving DecidableEq, Repr

/-- `registerMcpPort` (lines 286 to 290): append the port unless it is
already present. -/
def registerMcpPort (port : Int) (st : CleanupState) : CleanupState :=
  if port ∈ st.ports then st else { st with ports := st.ports ++ [port] }

/-- `registerMcpPattern` (lines 295 to 299). -/
def registerMcpPattern (pattern : String) (st : CleanupState) : CleanupState :=
  if pattern ∈ st.patterns then st else
    { st with patterns := st.patterns ++ [pattern] }

/-- One iteration of the pattern loop of `findMcpProcesses` (lines 65 to
78): run `pgrep -f pattern`; a throwing exec is caught and contributes
nothing; otherwise split stdout into lines, drop blank lines, parse each
line as a pid and emit `{ pid, name: pattern }` for the parseable ones. -/
def matchesForPattern (os : OsEnv) (pattern : String) : List ProcessInfo :=
  match os.pgrep pattern with
  | none => []
  | some stdout =>
    ((jsSplitNl (jsTrim stdout)).filter (fun p => jsTrim p ≠ "")).filterMap
      (fun pidStr => (jsParseInt10 pidStr).map (fun pid => ⟨pid, pattern, none⟩))

/-- `findMcpProcesses` (lines 39 to 85), POSIX branch: accumulate the
matches of every watched pattern in order. -/
def findMcpProcesses (patterns : List String) (os : OsEnv) : List ProcessInfo :=
  patterns.foldl (fun acc pattern => acc ++ matchesForPattern os pattern) []

/-- One iteration of the port loop of `findProcessesOnMcpPorts` (lines
112 to 126): run `lsof -ti:port`; a throwing exec contributes nothing;
otherwise parse each non-blank stdout line as a pid and emit
`{ pid, name: "port:" ++ port, port }`. -/
def listenersForPort (os : OsEnv) (port : Int) : List ProcessInfo :=
  match os.lsof port with
  | none => []
  | some stdout =>
    ((jsSplitNl (jsTrim stdout)).filter (fun p => jsTrim p ≠ "")).filterMap
      (fun pidStr => (jsParseInt10 pidStr).map
        (fun pid => ⟨pid, "port:" ++ toString port, some port⟩))

/-- `findProcessesOnMcpPorts` (lines 90 to 133), POSIX branch. -/
def findProcessesOnMcpPorts (ports : List Int) (os : OsEnv) : List ProcessInfo :=
  ports.foldl (fun acc port => acc ++ listenersForPort os port) []

/-- One insertion into the `Map<number, ProcessInfo>` of
`cleanupOrphanedMcpProcesses` (lines 204 to 208): keep the map unchanged
when the pid is already a key, otherwise append (a JavaScript Map
preserves insertion order). -/
def dedupeStep (acc : List ProcessInfo) (p : ProcessInfo) : List ProcessInfo :=
  if acc.any (fun q => q.pid == p.pid) then acc else acc ++ [p]

/-- The deduplication of lines 202 to 208: walk the concatenated
discovery results inserting by pid, first occurrence wins. -/
def dedupe (procs : List ProcessInfo) : List ProcessInfo :=
  procs.foldl dedupeStep []

/-- The loop body of lines 221 to 234: attempt to kill one discovered
process, increment the success counter when `killProcess` reports
success, and extend the trace of attempted pids either way. -/
def sweepStep (os : OsEnv) (acc : Nat × List Int) (p : ProcessInfo) :
    Nat × List Int :=
  if (killProcess (os.procs p.pid)).success then
    (acc.1 + 1, acc.2 ++ [p.pid])
  else
    (acc.1, acc.2 ++ [p.pid])

/-- `cleanupOrphanedMcpProcesses` (lines 193 to 238): discover by
pattern and by port, deduplicate by pid, then terminate each entry in
order, counting successes.  Returns the count together with the trace of
pids handed to `killProcess`, in order. -/
def cleanupOrphanedMcpProcesses (st : CleanupState) (os : OsEnv) :
    Nat × List Int :=
  let processesByName := findMcpProcesses st.patterns os
  let processesByPort := findProcessesOnMcpPorts st.ports os
  let allProcesses := dedupe (processesByName ++ processesByPort)
  if allProcesses.isEmpty then (0, [])
  else allProcesses.foldl (sweepStep os) (0, [])

set_option linter.unusedVariables false in
/-- `freePort` (lines 247 to 280), POSIX branch: run `lsof -ti:port`
(a throwing exec is caught and yields `false`); take the FIRST line of
stdout; when it is non-blank and parses as a pid, call `killProcess` on
it — discarding its result — and return `true`; in every other case
return `true`.  The state argument mirrors that the source function runs
inside the module holding `MCP_PORTS` and `MCP_PROCESS_PATTERNS`; its
body never reads them.  Returns the result together with the pids handed
to `killProcess`. -/
def freePort (st : CleanupState) (os : OsEnv) (port : Int) :
    Bool × List Int :=
  match os.lsof port with
  | none => (false, [])
  | some stdout =>
    let pidStr := (jsSplitNl (jsTrim stdout)).headD ""
    if pidStr ≠ "" then
      match jsParseInt10 pidStr with
      | some pid =>
        let _ := killProcess (os.procs pid)
        (true, [pid])
      | none => (true, [])
    else (true, [])

/-- Helper for `jsTrimSplitWs`: the maximal non-whitespace tokens of a
character list, accumulating the current token in reverse. -/
def tokensAux : List Char → List Char → List String
  | [], cur => if cur.isEmpty then [] else [String.mk cur.reverse]
  | c :: cs, cur =>
    if c.isWhitespace then
      if cur.isEmpty then tokensAux cs []
      else String.mk cur.reverse :: tokensAux cs []
    else tokensAux cs (c :: cur)

/-- The JavaScript idiom `line.trim().split(/\s+/)` of lines 101 and
253: after trimming, the split yields the maximal non-whitespace tokens,
except that the empty string yields `[""]`. -/
def jsTrimSplitWs (s : String) : List String :=
  let t := jsTrim s
  if t.data.isEmpty then [""]
  else tokensAux t.data []

/-- Whether `pre` is a prefix of the second list. -/
def startsWithChars : List Char → List Char → Bool
  | [], _ => true
  | _ :: _, [] => false
  | p :: ps, c :: cs => p == c && startsWithChars ps cs

/-- Whether `needle` occurs as a contiguous sublist. -/
def containsChars (needle : List Char) : List Char → Bool
  | [] => startsWithChars needle []
  | c :: cs => startsWithChars needle (c :: cs) || containsChars needle cs

/-- JavaScript `s.includes(sub)`: literal substring containment. -/
def jsIncludes (s sub : String) : Bool :=
  containsChars sub.data s.data

/-- The per-line test of the win32 `freePort` loop (lines 253 to 256):
split the trimmed line on whitespace runs; when it has at least five
fields, field 1 (the local address) contains `:port` as a substring, and
field 4 parses to a nonzero pid, that pid is the one the loop kills;
otherwise the loop moves on. -/
def winLineKill (port : Int) (line : String) : Option Int :=
  let parts := jsTrimSplitWs line
  if 5 ≤ parts.length ∧ jsIncludes (parts.getD 1 "") (":" ++ toString port) then
    match jsParseInt10 (parts.getD 4 "") with
    | some pid => if pid ≠ 0 then some pid else none
    | none => none
  else none

/-- The win32 `freePort` loop over netstat output lines (lines 252 to
262): the first line carrying a killable pid gets `killProcess` — result
discarded — and `return true`; if no line qualifies, control falls
through to `return true` on line 276 with no termination attempted. -/
def freePortWinLoop (os : OsEnv) (port : Int) : List String → Bool × List Int
  | [] => (true, [])
  | line :: rest =>
    match winLineKill port line with
    | some pid =>
      let _ := killProcess (os.procs pid)
      (true, [pid])
    | none => freePortWinLoop os port rest

set_option linter.unusedVariables false in
/-- The win32 branch of `freePort` (lines 249 to 262 with the shared
tail 276 to 279): run `netstat -ano | findstr ":port"`.  `findstr` exits
nonzero when no line matches — which is exactly the free-port case — so
the exec rejects, the catch on line 278 fires, and `freePort` returns
`false`; otherwise the loop scans the output lines.  Like `freePort`,
the state argument is carried but never read. -/
def freePortWin32 (st : CleanupState) (os : OsEnv) (port : Int) :
    Bool × List Int :=
  match os.netstat port with
  | none => (false, [])
  | some stdout => freePortWinLoop os port (jsSplitNl (jsTrim stdout))

/-- The two platform families `process.platform` selects between. -/
inductive OsFamily where
  | win32
  | posix
deriving DecidableEq, Repr

/-- The whole of `freePort` (lines 247 to 280): dispatch on
`process.platform === 'win32'` (line 249) between the two branches. -/
def freePortOn : OsFamily → CleanupState → OsEnv → Int → Bool × List Int
  | .win32 => freePortWin32
  | .posix => freePort

/-- The pids of a list of process handles, in order. -/
def pidsOf (l : List ProcessInfo) : List Int :=
  l.map (fun p => p.pid)

/-- A process that exits during the first grace interval. -/
def promptExit : ProcBehavior :=
  ⟨.ok, false, .ok, false⟩

/-- A process that survives SIGTERM, SIGKILL and both grace intervals. -/
def unkillable : ProcBehavior :=
  ⟨.ok, true, .ok, true⟩

/-- The initial module state (lines 19 to 28). -/
def initialState : CleanupState :=
  ⟨["robloxstudio-mcp", "mcp-remote", "mcp-server"], [3002]⟩

/-- An OS in which pid 42 listens on every port and ignores SIGKILL. -/
def osStuck : OsEnv :=
  ⟨fun _ => none, fun _ => some "42", fun _ => none, fun _ => unkillable⟩

/-- An OS with no listener on any port: `lsof -ti` prints nothing. -/
def osQuiet : OsEnv :=
  ⟨fun _ => none, fun _ => some "", fun _ => none, fun _ => promptExit⟩

/-- An OS reporting three listeners on every port. -/
def osMulti : OsEnv :=
  ⟨fun _ => none, fun _ => some "12\n34\n56", fun _ => none,
   fun _ => promptExit⟩

/-- An OS whose enumeration tools are all missing: every exec throws. -/
def osDown : OsEnv :=
  ⟨fun _ => none, fun _ => none, fun _ => none, fun _ => promptExit⟩

/-- An OS where pids 101 and 102 match the pattern "mcp-server" and pid
101 also listens on port 3002; every process dies on SIGTERM. -/
def osTwo : OsEnv :=
  ⟨fun pat => if pat = "mcp-server" then some "101\n102" else some "",
   fun port => if port = 3002 then some "101" else some "",
   fun _ => none,
   fun _ => promptExit⟩

/-- A Windows OS with every port free: `findstr` matches no netstat
line, exits nonzero, and the exec rejects on every port. -/
def osWinQuiet : OsEnv :=
  ⟨fun _ => none, fun _ => none, fun _ => none, fun _ => promptExit⟩

/-- The state of the §8 scenario: watched patterns {"mcp-server"},
watched ports {3002}. -/
def stScenario : CleanupState :=
  ⟨["mcp-server"], [3002]⟩

/-- Two pattern matches, pids 7 and 9. -/
def byNameW : List ProcessInfo :=
  [⟨7, "mcp-server", none⟩, ⟨9, "mcp-remote", none⟩]

/-- One port match, pid 7 again: the same process discovered twice. -/
def byPortW : List ProcessInfo :=
  [⟨7, "port:3002", some 3002⟩]

/-- The handle the deduplicator must retain for pid 7: the first
occurrence, with the pattern label. -/
def handleW : ProcessInfo :=
  ⟨7, "mcp-server", none⟩

/-! ## Helper lemmas -/

lemma pidsOf_cons (p : ProcessInfo) (l : List ProcessInfo) :
    pidsOf (p :: l) = p.pid :: pidsOf l := by
  simp [pidsOf]

lemma pidsOf_append (l₁ l₂ : List ProcessInfo) :
    pidsOf (l₁ ++ l₂) = pidsOf l₁ ++ pidsOf l₂ := by
  simp [pidsOf]

lemma any_pid_iff (acc : List ProcessInfo) (p : ProcessInfo) :
    (acc.any (fun q => q.pid == p.pid)) = true ↔ p.pid ∈ pidsOf acc := by
  rw [List.any_eq_true]
  constructor
  · rintro ⟨q, hq, he⟩
    exact List.mem_map.mpr ⟨q, hq, beq_iff_eq.mp he⟩
  · intro h
    rcases List.mem_map.mp h with ⟨q, hq, he⟩
    exact ⟨q, hq, beq_iff_eq.mpr he⟩

lemma dedupeStep_of_mem (acc : List ProcessInfo) (p : ProcessInfo)
    (h : p.pid ∈ pidsOf acc) : dedupeStep acc p = acc := by
  have htrue : (acc.any (fun q => q.pid == p.pid)) = true :=
    (any_pid_iff acc p).mpr h
  simp [dedupeStep, htrue]

lemma dedupeStep_of_not_mem (acc : List ProcessInfo) (p : ProcessInfo)
    (h : p.pid ∉ pidsOf acc) : dedupeStep acc p = acc ++ [p] := by
  have hfalse : (acc.any (fun q => q.pid == p.pid)) = false := by
    rw [Bool.eq_false_iff]
    intro ht
    exact h ((any_pid_iff acc p).mp ht)
  simp [dedupeStep, hfalse]

lemma dedupe_aux_nodup :
    ∀ (l acc : List ProcessInfo), (pidsOf acc).Nodup →
      (pidsOf (l.foldl dedupeStep acc)).Nodup := by
  intro l
  induction l with
  | nil => intro acc h; simpa using h
  | cons p rest ih =>
    intro acc h
    rw [List.foldl_cons]
    apply ih
    by_cases hp : p.pid ∈ pidsOf acc
    · rw [dedupeStep_of_mem acc p hp]; exact h
    · rw [dedupeStep_of_not_mem acc p hp, pidsOf_append]
      rw [List.nodup_append]
      refine ⟨h, by simp [pidsOf], ?_⟩
      intro a ha
      simp [pidsOf] at ha ⊢
      intro he
      exact hp (by simpa [pidsOf, he] using ha)

lemma dedupe_aux_mem :
    ∀ (l acc : List ProcessInfo) (x : Int),
      x ∈ pidsOf (l.foldl dedupeStep acc) ↔ x ∈ pidsOf acc ∨ x ∈ pidsOf l := by
  intro l
  induction l with
  | nil => intro acc x; simp [pidsOf]
  | cons p rest ih =>
    intro acc x
    rw [List.foldl_cons, ih, pidsOf_cons, List.mem_cons]
    by_cases hp : p.pid ∈ pidsOf acc
    · rw [dedupeStep_of_mem acc p hp]
      constructor
      · rintro (h | h)
        · exact Or.inl h
        · exact Or.inr (Or.inr h)
      · rintro (h | rfl | h)
        · exact Or.inl h
        · exact Or.inl hp
        · exact Or.inr h
    · rw [dedupeStep_of_not_mem acc p hp, pidsOf_append]
      have hs : x ∈ pidsOf acc ++ pidsOf [p] ↔ x ∈ pidsOf acc ∨ x = p.pid := by
        simp [pidsOf]
      rw [hs]
      tauto

lemma dedupe_aux_find :
    ∀ (l acc : List ProcessInfo) (q : ProcessInfo),
      q ∈ l.foldl dedupeStep acc →
      q ∈ acc ∨ (q.pid ∉ pidsOf acc ∧
        l.find? (fun r => r.pid == q.pid) = some q) := by
  intro l
  induction l with
  | nil => intro acc q h; exact Or.inl (by simpa using h)
  | cons p rest ih =>
    intro acc q h
    rw [List.foldl_cons] at h
    rcases ih (dedupeStep acc p) q h with hacc | ⟨hnot, hfind⟩
    · by_cases hp : p.pid ∈ pidsOf acc
      · rw [dedupeStep_of_mem acc p hp] at hacc
        exact Or.inl hacc
      · rw [dedupeStep_of_not_mem acc p hp] at hacc
        rcases List.mem_append.mp hacc with hacc | hsing
        · exact Or.inl hacc
        · have hq : q = p := by simpa using hsing
          subst hq
          refine Or.inr ⟨hp, ?_⟩
          rw [List.find?_cons_of_pos _ (by simp)]
    · have hsub : pidsOf acc ⊆ pidsOf (dedupeStep acc p) := by
        by_cases hp : p.pid ∈ pidsOf acc
        · rw [dedupeStep_of_mem acc p hp]
          exact fun a ha => ha
        · rw [dedupeStep_of_not_mem acc p hp, pidsOf_append]
          exact List.subset_append_left _ _
      have hpmem : p.pid ∈ pidsOf (dedupeStep acc p) := by
        by_cases hp : p.pid ∈ pidsOf acc
        · rw [dedupeStep_of_mem acc p hp]; exact hp
        · rw [dedupeStep_of_not_mem acc p hp, pidsOf_append]
          simp [pidsOf]
      have hne : p.pid ≠ q.pid := fun he => hnot (he ▸ hpmem)
      refine Or.inr ⟨fun hm => hnot (hsub hm), ?_⟩
      rw [List.find?_cons_of_neg _ (by simpa using hne)]
      exact hfind

lemma dedupe_pids_nodup (l : List ProcessInfo) : (pidsOf (dedupe l)).Nodup :=
  dedupe_aux_nodup l [] (by simp [pidsOf])

lemma dedupe_pids_mem (l : List ProcessInfo) (x : Int) :
    x ∈ pidsOf (dedupe l) ↔ x ∈ pidsOf l := by
  have h := dedupe_aux_mem l [] x
  simpa [pidsOf] using h

lemma dedupe_find (l : List ProcessInfo) (q : ProcessInfo) (h : q ∈ dedupe l) :
    l.find? (fun r => r.pid == q.pid) = some q := by
  rcases dedupe_aux_find l [] q h with habs | ⟨_, hf⟩
  · simp at habs
  · exact hf

lemma sweep_foldl (os : OsEnv) :
    ∀ (l : List ProcessInfo) (n : Nat) (tr : List Int),
      l.foldl (sweepStep os) (n, tr) =
        (n + (l.filter
          (fun p => (killProcess (os.procs p.pid)).success)).length,
         tr ++ pidsOf l) := by
  intro l
  induction l with
  | nil => intro n tr; simp [pidsOf]
  | cons p rest ih =>
    intro n tr
    rw [List.foldl_cons]
    by_cases hs : (killProcess (os.procs p.pid)).success
    · rw [show sweepStep os (n, tr) p = (n + 1, tr ++ [p.pid]) by
        simp [sweepStep, hs]]
      rw [ih, pidsOf_cons, List.filter_cons]
      simp [hs]
      omega
    · rw [show sweepStep os (n, tr) p = (n, tr ++ [p.pid]) by
        simp [sweepStep, hs]]
      rw [ih, pidsOf_cons, List.filter_cons]
      simp [hs]

lemma cleanup_eq (st : CleanupState) (os : OsEnv) :
    cleanupOrphanedMcpProcesses st os =
      (((dedupe (findMcpProcesses st.patterns os ++
          findProcessesOnMcpPorts st.ports os)).filter
            (fun p => (killProcess (os.procs p.pid)).success)).length,
       pidsOf (dedupe (findMcpProcesses st.patterns os ++
          findProcessesOnMcpPorts st.ports os))) := by
  unfold cleanupOrphanedMcpProcesses
  by_cases he :
      (dedupe (findMcpProcesses st.patterns os ++
        findProcessesOnMcpPorts st.ports os)).isEmpty
  · rw [List.isEmpty_iff] at he
    simp [he, pidsOf]
  · simp only [he, if_false, Bool.false_eq_true]
    rw [sweep_foldl os]
    simp

lemma foldl_append_flatMap {α β : Type} (f : α → List β) :
    ∀ (l : List α) (acc : List β),
      l.foldl (fun a x => a ++ f x) acc = acc ++ l.flatMap f := by
  intro l
  induction l with
  | nil => intro acc; simp
  | cons x xs ih => intro acc; simp [ih, List.flatMap]

lemma killProcess_already_dead_success (b : ProcBehavior)
    (h : (killProcess b).reason = some .already_dead) :
    (killProcess b).success = true := by
  unfold killProcess killProcessTr at h ⊢
  rcases b with ⟨ht, ha, hk, hd⟩
  rcases ht with _ | e
  · dsimp at h ⊢
    rcases ha with _ | _ <;> rcases hk with _ | e2 <;>
      rcases hd with _ | _ <;> simp_all
  · rcases e with _ | _ | _ <;> simp_all

/-! ## Claim theorems -/

/-- C2: for every live process, `terminate` follows the escalation state
machine.  A process that exits within the first grace interval after the
graceful signal yields `{success: true, reason: terminated}` — the
source spells the reason `killed` — and the forced signal is never sent;
a process that ignores the graceful signal but dies after the forced one
yields `{success: true, reason: terminated}`; a process still alive
after the forced signal and the second grace interval yields
`{success: false, reason: failed}` — spelled `error` in the source. -/
theorem killProcess_escalation (b₁ b₂ b₃ : ProcBehavior)
    (h₁t : b₁.sigtermResult = .ok) (h₁a : b₁.aliveAfterTerm = false)
    (h₂t : b₂.sigtermResult = .ok) (h₂a : b₂.aliveAfterTerm = true)
    (h₂k : b₂.sigkillResult = .ok) (h₂d : b₂.aliveAfterKill = false)
    (h₃t : b₃.sigtermResult = .ok) (h₃a : b₃.aliveAfterTerm = true)
    (h₃k : b₃.sigkillResult = .ok) (h₃d : b₃.aliveAfterKill = true) :
    ((killProcessTr b₁).1 = ⟨true, some .killed⟩ ∧
      Sig.forced ∉ (killProcessTr b₁).2) ∧
    (killProcessTr b₂).1 = ⟨true, some .killed⟩ ∧
    (killProcessTr b₃).1 = ⟨false, some .error⟩ := by
  unfold killProcessTr
  rw [h₁t, h₁a, h₂t, h₂a, h₂k, h₂d, h₃t, h₃a, h₃k, h₃d]
  simp

/-- Witness for C2 at concrete behaviors: dies in the first grace
interval; survives SIGTERM but dies from SIGKILL; survives both. -/
theorem killProcess_escalation_witness :
    ((killProcessTr ⟨.ok, false, .ok, false⟩).1 = ⟨true, some .killed⟩ ∧
      Sig.forced ∉ (killProcessTr ⟨.ok, false, .ok, false⟩).2) ∧
    (killProcessTr ⟨.ok, true, .ok, false⟩).1 = ⟨true, some .killed⟩ ∧
    (killProcessTr ⟨.ok, true, .ok, true⟩).1 = ⟨false, some .error⟩ :=
  killProcess_escalation _ _ _ rfl rfl rfl rfl rfl rfl rfl rfl rfl rfl

/-- C3: when the OS reports "no such process" (ESRCH) as the graceful
signal is sent, `terminate` returns `{success: true,
reason: already_dead}` — a success, not a failure. -/
theorem killProcess_missing_pid (b : ProcBehavior)
    (h : b.sigtermResult = .err .esrch) :
    killProcess b = ⟨true, some .already_dead⟩ := by
  unfold killProcess killProcessTr
  rw [h]

/-- Witness for C3: a pid whose SIGTERM throws ESRCH. -/
theorem killProcess_missing_pid_witness :
    killProcess ⟨.err .esrch, false, .ok, false⟩ =
      ⟨true, some .already_dead⟩ :=
  killProcess_missing_pid ⟨.err .esrch, false, .ok, false⟩ rfl

/-- C1 (code bug): the claim states that `freePort` returns `false`
exactly when a listener was found and its termination failed.  In the
source, the result of `killProcess` at line 257 and 269 is discarded, so
when the lookup reports pid 42 and pid 42 survives even SIGKILL —
`killProcess` returning `{success: false}` — `freePort` still returns
`true`, contradicting the claim and the function doc comment
"@returns True if the port was freed".  (`false` is returned only when
the lookup exec itself throws.) -/
theorem freePort_true_despite_failed_kill :
    freePort initialState osStuck 3002 = (true, [42]) ∧
    (killProcess (osStuck.procs 42)).success = false := by
  decide

/-- C4: deduplication of the two discovery sequences (pattern matches
first, then port matches) keeps exactly one entry per distinct pid: the
pid list of the result has no duplicates, covers exactly the pids of the
input, and each retained handle is the first occurrence — label
included — of its pid in the concatenated input. -/
theorem dedupe_unique_first_occurrence (byName byPort : List ProcessInfo) :
    (pidsOf (dedupe (byName ++ byPort))).Nodup ∧
    (∀ x : Int, x ∈ pidsOf (dedupe (byName ++ byPort)) ↔
      x ∈ pidsOf (byName ++ byPort)) ∧
    ∀ q ∈ dedupe (byName ++ byPort),
      (byName ++ byPort).find? (fun r => r.pid == q.pid) = some q :=
  ⟨dedupe_pids_nodup _, fun x => dedupe_pids_mem _ x,
   fun q hq => dedupe_find _ q hq⟩

/-- Witness for C4: pid 7 is discovered by a pattern and again by a
port; the deduplicated set retains the pattern occurrence with its
label. -/
theorem dedupe_unique_first_occurrence_witness :
    (byNameW ++ byPortW).find? (fun r => r.pid == handleW.pid) =
      some handleW :=
  (dedupe_unique_first_occurrence byNameW byPortW).2.2 handleW (by decide)

/-- C5: `cleanupOrphanedMcpProcesses` attempts to terminate every handle
of the deduplicated set in order — the trace of pids handed to
`killProcess` is exactly the pid list of the deduplicated set, so a
process discovered by both strategies is terminated and counted once —
and returns the number of handles whose termination reported success;
`already_dead` outcomes carry `success = true` and therefore count. -/
theorem cleanup_counts_dedupe_successes (st : CleanupState) (os : OsEnv) :
    cleanupOrphanedMcpProcesses st os =
      (((dedupe (findMcpProcesses st.patterns os ++
          findProcessesOnMcpPorts st.ports os)).filter
            (fun p => (killProcess (os.procs p.pid)).success)).length,
       pidsOf (dedupe (findMcpProcesses st.patterns os ++
          findProcessesOnMcpPorts st.ports os))) ∧
    ((cleanupOrphanedMcpProcesses st os).2).Nodup ∧
    ∀ b : ProcBehavior, (killProcess b).reason = some .already_dead →
      (killProcess b).success = true := by
  refine ⟨cleanup_eq st os, ?_, fun b h => killProcess_already_dead_success b h⟩
  rw [cleanup_eq st os]
  exact dedupe_pids_nodup _

/-- Witness for C5, the §8 scenarios: two processes match "mcp-server",
one of them also holds port 3002; the sweep kills each once and returns
2, and an `already_dead` outcome is a success. -/
theorem cleanup_counts_dedupe_successes_witness :
    cleanupOrphanedMcpProcesses stScenario osTwo = (2, [101, 102]) ∧
    (killProcess ⟨.err .esrch, false, .ok, false⟩).success = true :=
  ⟨by decide,
   (cleanup_counts_dedupe_successes stScenario osTwo).2.2
     ⟨.err .esrch, false, .ok, false⟩ rfl⟩

/-- C6 (code bug): the claim holds on the POSIX branch — empty `lsof`
output yields `true` with no pid handed to `killProcess` — but fails on
the win32 branch: on a free port `findstr` matches no netstat line and
exits nonzero, `execAsync` rejects, and the catch on line 278 returns
`false`.  That contradicts the claim, the comment on line 276
"Port was already free", and the function doc comment "@returns True if
the port was freed" (the port IS free): the intent — made explicit by
the `|| true` guard the POSIX branch appends exactly to avoid this — is
that a free port yields `true`, and the win32 lookup command fails to
implement it.  The theorem evaluates both branches of the code at a free
port. -/
theorem freePort_win32_false_on_free_port :
    freePortOn .win32 initialState osWinQuiet 3002 = (false, []) ∧
    freePortOn .posix initialState osQuiet 3002 = (true, []) := by
  decide

/-- C7: `registerMcpPort` and `registerMcpPattern` are idempotent —
registering a value twice leaves the watched state exactly as
registering it once — and a single registration leaves exactly one copy
of a previously absent value (and adds none when it is present). -/
theorem register_idempotent (port : Int) (pattern : String)
    (st : CleanupState) :
    registerMcpPort port (registerMcpPort port st) =
      registerMcpPort port st ∧
    registerMcpPattern pattern (registerMcpPattern pattern st) =
      registerMcpPattern pattern st ∧
    (registerMcpPort port st).ports.count port =
      max (st.ports.count port) 1 ∧
    (registerMcpPattern pattern st).patterns.count pattern =
      max (st.patterns.count pattern) 1 := by
  refine ⟨?_, ?_, ?_, ?_⟩
  · by_cases h : port ∈ st.ports
    · simp [registerMcpPort, h]
    · simp [registerMcpPort, h]
  · by_cases h : pattern ∈ st.patterns
    · simp [registerMcpPattern, h]
    · simp [registerMcpPattern, h]
  · by_cases h : port ∈ st.ports
    · rw [registerMcpPort, if_pos h]
      exact (Nat.max_eq_left (List.one_le_count_iff.mpr h)).symm
    · rw [registerMcpPort, if_neg h]
      simp [List.count_append, List.count_eq_zero.mpr h]
  · by_cases h : pattern ∈ st.patterns
    · rw [registerMcpPattern, if_pos h]
      exact (Nat.max_eq_left (List.one_le_count_iff.mpr h)).symm
    · rw [registerMcpPattern, if_neg h]
      simp [List.count_append, List.count_eq_zero.mpr h]

/-- C8: discovery decomposes probe by probe — each watched pattern and
port contributes its own matches independently, and a probe whose exec
throws (enumeration tool missing or erroring) contributes the empty
result while the sweep continues with the others.  Termination failures
do not stop the sweep either: the trace of attempted pids is always the
full deduplicated pid list, whatever each `killProcess` outcome is.
Every embedded function is total over every environment — including ones
where every OS call throws — so no failure propagates to the caller. -/
theorem discovery_failure_nonfatal (st : CleanupState) (os : OsEnv) :
    findMcpProcesses st.patterns os =
      st.patterns.flatMap (fun pat => matchesForPattern os pat) ∧
    findProcessesOnMcpPorts st.ports os =
      st.ports.flatMap (fun port => listenersForPort os port) ∧
    (∀ pat, os.pgrep pat = none → matchesForPattern os pat = []) ∧
    (∀ port, os.lsof port = none → listenersForPort os port = []) ∧
    (cleanupOrphanedMcpProcesses st os).2 =
      pidsOf (dedupe (findMcpProcesses st.patterns os ++
        findProcessesOnMcpPorts st.ports os)) := by
  refine ⟨?_, ?_, ?_, ?_, ?_⟩
  · rw [findMcpProcesses]
    exact (foldl_append_flatMap _ _ _).trans (by simp)
  · rw [findProcessesOnMcpPorts]
    exact (foldl_append_flatMap _ _ _).trans (by simp)
  · intro pat h
    simp [matchesForPattern, h]
  · intro port h
    simp [listenersForPort, h]
  · rw [cleanup_eq st os]

/-- Witness for C8: an OS whose enumeration tools are all missing. -/
theorem discovery_failure_nonfatal_witness :
    matchesForPattern osDown "mcp-server" = [] ∧
    listenersForPort osDown 3002 = [] :=
  ⟨(discovery_failure_nonfatal initialState osDown).2.2.1 "mcp-server" rfl,
   (discovery_failure_nonfatal initialState osDown).2.2.2.1 3002 rfl⟩

/-- C9: `freePort` signals at most one process per call: its kill trace
never holds more than one pid, and any pid it does kill is parsed from
the FIRST line of the port lookup output — later lines are ignored. -/
theorem freePort_kills_at_most_first (st : CleanupState) (os : OsEnv)
    (port : Int) :
    (freePort st os port).2.length ≤ 1 ∧
    ∀ s, os.lsof port = some s →
      ∀ pid ∈ (freePort st os port).2,
        jsParseInt10 ((jsSplitNl (jsTrim s)).headD "") = some pid := by
  unfold freePort
  cases hl : os.lsof port with
  | none => simp
  | some stdout =>
    dsimp only
    by_cases hne : (jsSplitNl (jsTrim stdout)).headD "" ≠ ""
    · rw [if_pos hne]
      cases hp : jsParseInt10 ((jsSplitNl (jsTrim stdout)).headD "") with
      | none =>
        simp
      | some pid =>
        refine ⟨by simp, ?_⟩
        intro s hs pid' hmem
        have hss : s = stdout := (Option.some_inj.mp hs).symm
        subst hss
        have : pid' = pid := by simpa using hmem
        subst this
        exact hp
    · rw [if_neg hne]
      simp

/-- Witness for C9: an OS reporting three listeners 12, 34, 56; only the
first is signalled. -/
theorem freePort_kills_at_most_first_witness :
    jsParseInt10 ((jsSplitNl (jsTrim "12\n34\n56")).headD "") = some 12 :=
  (freePort_kills_at_most_first initialState osMulti 3002).2
    "12\n34\n56" rfl 12 (by decide)

/-- C10: the result and actions of `freePort` do not depend on the
registered watched sets: under the same OS responses, any two
registration states — in particular before and after a `registerMcpPort`
or `registerMcpPattern` call — give identical results. -/
theorem freePort_ignores_registration (st₁ st₂ : CleanupState) (os : OsEnv)
    (port q : Int) (pat : String) :
    freePort st₁ os port = freePort st₂ os port ∧
    freePort (registerMcpPort q st₁) os port = freePort st₁ os port ∧
    freePort (registerMcpPattern pat st₁) os port = freePort st₁ os port :=
  ⟨rfl, rfl, rfl⟩
